import Mathlib

/-!
Shallow embedding of the `digit_recognition` repository (Rust) for checking
its natural-language specification.

Modelling conventions:
* A Rust `Read` byte source is a pure list of bytes (`ByteStream`, bytes as
  `Nat`).  Reading consumes a prefix; `read_exact` on a truncated source
  consumes everything that is left and fails (the default `Read::read_exact`
  behaviour on in-memory sources).
* Fallible decodes return `Except Unit α × ByteStream` — the error stands for
  `std::io::Error`, the second component is the remaining stream.
* `f64` is modelled as `ℚ`; the transcendental helpers (`E.powf`, `log2`)
  are passed in as function parameters, so every definition stays executable.
-/

namespace DigitRec

abbrev ByteStream := List Nat

/-- `Read::read_exact` over an in-memory source: take `n` bytes; if fewer are
available the whole remainder is consumed and the read fails. -/
def readExact (n : Nat) (s : ByteStream) : Except Unit (List Nat) × ByteStream :=
  if n ≤ s.length then (.ok (s.take n), s.drop n) else (.error (), [])

/-- Big-endian value of a byte list (`u32::from_be_bytes` on 4 bytes). -/
def beVal (l : List Nat) : Nat := l.foldl (fun a b => a * 256 + b) 0

/-- `TypedRead::read_be::<u32>`: four big-endian bytes. -/
def read_be_u32 (s : ByteStream) : Except Unit Nat × ByteStream :=
  match readExact 4 s with
  | (.ok l, s') => (.ok (beVal l), s')
  | (.error e, s') => (.error e, s')

/-- `TypedRead::read_ne::<u8>`: one byte. -/
def read_u8 (s : ByteStream) : Except Unit Nat × ByteStream :=
  match s with
  | [] => (.error (), [])
  | b :: rest => (.ok b, rest)

structure ImageSize where
  width : Nat
  height : Nat
deriving Repr, DecidableEq

/-- `ImageSize::area` (src/data.rs). -/
def ImageSize.area (sz : ImageSize) : Nat := sz.width * sz.height

/-- `Image` (src/data.rs): geometry plus row-major pixel bytes. -/
structure Image where
  size : ImageSize
  pixels : List Nat
deriving Repr, DecidableEq

/-- `Label` (src/training_data.rs). -/
structure Label where
  digit : Nat
deriving Repr, DecidableEq

/-- `impl ReadFromBytes for Image` (src/training_data.rs): per-record
big-endian width, big-endian height, then `width*height` pixel bytes. -/
def Image.read_from_bytes (s : ByteStream) : Except Unit Image × ByteStream :=
  match read_be_u32 s with
  | (.error e, s₁) => (.error e, s₁)
  | (.ok width, s₁) =>
    match read_be_u32 s₁ with
    | (.error e, s₂) => (.error e, s₂)
    | (.ok height, s₂) =>
      match readExact (width * height) s₂ with
      | (.error e, s₃) => (.error e, s₃)
      | (.ok pixels, s₃) => (.ok ⟨⟨width, height⟩, pixels⟩, s₃)

/-- `impl ReadFromBytes for Label` (src/training_data.rs): one byte. -/
def Label.read_from_bytes (s : ByteStream) : Except Unit Label × ByteStream :=
  match read_u8 s with
  | (.error e, s') => (.error e, s')
  | (.ok d, s') => (.ok ⟨d⟩, s')

/-- A single-record decoder, the shape of `ReadFromBytes::read_from_bytes`. -/
abbrev Decoder (T : Type) := ByteStream → Except Unit T × ByteStream

/-- `stop_on_io_error` (src/io_ext.rs): keep the item iff it is `Ok`. -/
def stop_on_io_error {T : Type} (item : Except Unit T) : Bool :=
  match item with
  | .ok _ => true
  | .error _ => false

/-- `DataIter::next` (src/io_ext.rs) with the `stop_on_io_error` predicate
installed by `IntoDataIter`: decode one record; if the predicate rejects it
(i.e. it is an error) yield `none`, else yield the item. -/
def dataIterNext {T : Type} (decode : Decoder T) (s : ByteStream) :
    Option (Except Unit T) × ByteStream :=
  match decode s with
  | (item, s') => if ! stop_on_io_error item then (none, s') else (some item, s')

/-- Result of the pull number `k` (0-based) on a `DataIter` started at `s`. -/
def pullK {T : Type} (d : Decoder T) : ByteStream → Nat → Option (Except Unit T)
  | s, 0 => (dataIterNext d s).1
  | s, k + 1 => pullK d (dataIterNext d s).2 k

/-- `MAGIC_BYTES` (src/training_data.rs): `[0x00, 0x00, 0x08, 0x01]`. -/
def MAGIC_BYTES : List Nat := [0x00, 0x00, 0x08, 0x01]

/-- `MAGIC = u32::from_be_bytes(MAGIC_BYTES)` (src/training_data.rs). -/
def MAGIC : Nat := beVal MAGIC_BYTES

inductive DataKind
  | image
  | label
deriving Repr, DecidableEq

/-- `ErrorKind` (src/training_data.rs). -/
inductive ErrorKind
  | magicNotFound (magic : Nat) (dataset_kind : DataKind)
  | ioError
  | invalidLabelCount (sample_count : Nat) (label_count : Nat)
deriving Repr, DecidableEq

/-- `verify_magic` (src/training_data.rs): read a big-endian u32 and compare
with `MAGIC`. -/
def verify_magic (s : ByteStream) (data_kind : DataKind) :
    Except ErrorKind Unit × ByteStream :=
  match read_be_u32 s with
  | (.error _, s') => (.error .ioError, s')
  | (.ok magic, s') =>
    if magic = MAGIC then (.ok (), s')
    else (.error (.magicNotFound magic data_kind), s')

/-- `TrainingImageSet` (src/training_data.rs): remaining image byte stream
plus the declared image count. -/
structure TrainingImageSet where
  images : ByteStream
  image_count : Nat
deriving Repr, DecidableEq

/-- `TrainingImageSet::try_from` (src/training_data.rs). -/
def TrainingImageSet.try_from (input : ByteStream) :
    Except ErrorKind TrainingImageSet :=
  match verify_magic input .image with
  | (.error e, _) => .error e
  | (.ok _, s₁) =>
    match read_be_u32 s₁ with
    | (.error _, _) => .error .ioError
    | (.ok image_count, s₂) => .ok ⟨s₂, image_count⟩

/-- `TrainingLabelSet` (src/training_data.rs). -/
structure TrainingLabelSet where
  labels : ByteStream
  label_count : Nat
deriving Repr, DecidableEq

/-- `TrainingLabelSet::try_from` (src/training_data.rs). -/
def TrainingLabelSet.try_from (input : ByteStream) :
    Except ErrorKind TrainingLabelSet :=
  match verify_magic input .label with
  | (.error e, _) => .error e
  | (.ok _, s₁) =>
    match read_be_u32 s₁ with
    | (.error _, _) => .error .ioError
    | (.ok label_count, s₂) => .ok ⟨s₂, label_count⟩

/-- `LabeledTrainingData` (src/training_data.rs). -/
structure LabeledTrainingData where
  image : Image
  label : Label
deriving Repr, DecidableEq

/-- `TrainingDataset` (src/training_data.rs). -/
structure TrainingDataset where
  images : TrainingImageSet
  labels : TrainingLabelSet
  read : Nat
deriving Repr, DecidableEq

/-- `TrainingDataset::from_readers` (src/training_data.rs). -/
def TrainingDataset.from_readers (images : ByteStream) (labels : ByteStream) :
    Except ErrorKind TrainingDataset :=
  match TrainingImageSet.try_from images with
  | .error e => .error e
  | .ok imgs =>
    match TrainingLabelSet.try_from labels with
    | .error e => .error e
    | .ok lbls =>
      if imgs.image_count ≠ lbls.label_count then
        .error (.invalidLabelCount imgs.image_count lbls.label_count)
      else
        .ok ⟨imgs, lbls, 0⟩

/-- `TrainingDataset::len` (src/training_data.rs). -/
def TrainingDataset.len (d : TrainingDataset) : Nat := d.images.image_count

/-- `impl Iterator for TrainingDataset::next` (src/training_data.rs): while
`read < len`, pull one image and one label from the wrapped `DataIter`s;
a successful pair increments `read`. -/
def TrainingDataset.next (d : TrainingDataset) :
    Option (Except ErrorKind LabeledTrainingData) × TrainingDataset :=
  if d.read < d.len then
    match dataIterNext Image.read_from_bytes d.images.images with
    | (some (.ok image), s₁) =>
      match dataIterNext Label.read_from_bytes d.labels.labels with
      | (some (.ok label), s₂) =>
        (some (.ok ⟨image, label⟩),
         { d with images := { d.images with images := s₁ },
                  labels := { d.labels with labels := s₂ },
                  read := d.read + 1 })
      | (some (.error _), s₂) =>
        (some (.error .ioError),
         { d with images := { d.images with images := s₁ },
                  labels := { d.labels with labels := s₂ } })
      | (none, s₂) =>
        (none,
         { d with images := { d.images with images := s₁ },
                  labels := { d.labels with labels := s₂ } })
    | (some (.error _), s₁) =>
      (some (.error .ioError), { d with images := { d.images with images := s₁ } })
    | (none, s₁) =>
      (none, { d with images := { d.images with images := s₁ } })
  else
    (none, d)

/-- State after `k` pulls on the dataset. -/
def TrainingDataset.iterate (d : TrainingDataset) : Nat → TrainingDataset
  | 0 => d
  | k + 1 => (d.next.2).iterate k

/-! ### Neural network engine (src/network.rs), `f64` modelled as `ℚ`. -/

/-- Dot product of two vectors (rows are lists). -/
def dot (v w : List ℚ) : ℚ := (List.zipWith (· * ·) v w).sum

/-- `DMatrix::mul_to`: matrix–vector product, one dot product per row. -/
def matVecMul (m : List (List ℚ)) (v : List ℚ) : List ℚ :=
  m.map (fun row => dot row v)

/-- Number of columns of a row-major matrix (`DMatrix::ncols`). -/
def ncols (m : List (List ℚ)) : Nat := (m.headD []).length

/-- Column `j` of a row-major matrix (missing entries default to 0). -/
def colD (m : List (List ℚ)) (j : Nat) : List ℚ := m.map (fun row => row.getD j 0)

/-- Matrix transpose, written independently of `tr_mul`. -/
def transposeM (m : List (List ℚ)) : List (List ℚ) :=
  (List.range (ncols m)).map (colD m)

/-- `DMatrix::tr_mul_to`: `mᵀ · v`, entry `j` is `column j · v`. -/
def tr_mul (m : List (List ℚ)) (v : List ℚ) : List ℚ :=
  (List.range (ncols m)).map (fun j => dot (colD m j) v)

/-- Elementwise vector sum (`tmp += &layer.biases`). -/
def vecAdd (v w : List ℚ) : List ℚ := List.zipWith (· + ·) v w

/-- Elementwise vector difference (`local_gradients[0] -= target`). -/
def vecSub (v w : List ℚ) : List ℚ := List.zipWith (· - ·) v w

/-- `component_mul_assign`: elementwise product. -/
def hadamard (v w : List ℚ) : List ℚ := List.zipWith (· * ·) v w

/-- Elementwise addition of `w` into the first `w.length` slots of `v`
(the remaining slots are untouched); the mathematical reading of the
backward pass's bias-accumulation loop. -/
def addInto (v w : List ℚ) : List ℚ := vecAdd v w ++ v.drop w.length

/-- `relu` (src/network.rs) — despite the name, the logistic sigmoid
`1/(1+e^(-x))`; the exponential is the `exp` parameter. -/
def relu (exp : ℚ → ℚ) (x : ℚ) : ℚ := 1 / (1 + exp (-x))

/-- `relu_prime` (src/network.rs): `σ(x)·(1-σ(x))`. -/
def relu_prime (exp : ℚ → ℚ) (x : ℚ) : ℚ :=
  relu exp x * (1 - relu exp x)

/-- `DVector::max` — maximum entry (0 on the empty vector, unused there). -/
def listMax : List ℚ → ℚ
  | [] => 0
  | x :: xs => xs.foldl max x

/-- `softmax` (src/network.rs): subtract the maximum, exponentiate with the
`exp` parameter, divide by the sum. -/
def softmax (exp : ℚ → ℚ) (v : List ℚ) : List ℚ :=
  let mx := listMax v
  let e := v.map (fun x => exp (x - mx))
  let s := e.sum
  e.map (fun x => x / s)

/-- `softmax_prime` (src/network.rs): elementwise `p·(1-p)` of the softmax. -/
def softmax_prime (exp : ℚ → ℚ) (v : List ℚ) : List ℚ :=
  (softmax exp v).map (fun x => x * (1 - x))

/-- `cross_entropy_loss` (src/network.rs): `-Σ target_i · log2(out_i)` over
the zipped vectors; `log2` is passed in as a parameter. -/
def cross_entropy_loss (log2 : ℚ → ℚ) (out : List ℚ) (expected : List ℚ) : ℚ :=
  -(List.zipWith (fun i o => i * log2 o) expected out).sum

/-- `Layer` (src/network.rs): weight matrix (rows × prev_dim) and biases. -/
structure Layer where
  weights : List (List ℚ)
  biases : List ℚ
deriving Repr, DecidableEq

/-- `Layer::dim`. -/
def Layer.dim (l : Layer) : Nat := l.biases.length

/-- `NeuralNetwork` (src/network.rs). -/
structure NeuralNetwork where
  layers : List Layer
deriving Repr, DecidableEq

/-- `NetworkResult` (src/network.rs). -/
structure NetworkResult where
  result : List ℚ
  activations : List (List ℚ)
  derivatives : List (List ℚ)
deriving Repr, DecidableEq

def INPUT_LAYER_SIZE : Nat := 28 * 28
def OUTPUT_LAYER_SIZE : Nat := 10

/-- The enumerated layer loop inside `compute_ex` (src/network.rs): for layer
index `i` compute `tmp = weights·result + biases`; for `i ≠ 1` cache the
sigmoid derivative of the pre-activation, apply the sigmoid and cache the
activation; for `i = 1` keep the raw pre-activation. -/
def computeLoop (exp : ℚ → ℚ) : Nat → List Layer → NetworkResult → NetworkResult
  | _, [], st => st
  | i, layer :: rest, st =>
    let tmp := vecAdd (matVecMul layer.weights st.result) layer.biases
    if i ≠ 1 then
      computeLoop exp (i + 1) rest
        { result := tmp.map (relu exp),
          activations := st.activations ++ [tmp.map (relu exp)],
          derivatives := st.derivatives ++ [tmp.map (relu_prime exp)] }
    else
      computeLoop exp (i + 1) rest { st with result := tmp }

/-- `NeuralNetwork::compute_ex` (src/network.rs).  The `panic!` on a wrong
input length is modelled as `none`; afterwards the layer loop runs, the
softmax derivative of the final pre-activation is cached and the result is
normalized by `softmax`. -/
def compute_ex (exp : ℚ → ℚ) (net : NeuralNetwork) (input : List ℚ) :
    Option NetworkResult :=
  if input.length ≠ INPUT_LAYER_SIZE then none
  else
    let st := computeLoop exp 0 net.layers
      { result := input, activations := [input], derivatives := [] }
    some { result := softmax exp st.result,
           activations := st.activations,
           derivatives := st.derivatives ++ [softmax_prime exp st.result] }

/-- `NeuralNetwork::compute` (src/network.rs). -/
def compute (exp : ℚ → ℚ) (net : NeuralNetwork) (input : List ℚ) :
    Option (List ℚ) :=
  (compute_ex exp net input).map (fun r => r.result)

/-- The bias loop inside `train` (src/network.rs):
`for (j, bias) in next_layer.biases { local_gradient[j] += bias }`, indexing
sequentially from the front; `none` models the out-of-bounds panic. -/
def add_biases_loop : List ℚ → List ℚ → Option (List ℚ)
  | v, [] => some v
  | [], _ :: _ => none
  | x :: v, b :: bs => (add_biases_loop v bs).map (fun r => (x + b) :: r)

/-- `NeuralNetwork::train` (src/network.rs): forward pass, cross-entropy
loss, output-layer local gradient `(result - target) ⊙ derivatives[1]`, one
backward step for layer 0 (`tr_mul` by layer 1's weights, the bias loop, the
elementwise derivative product), then `local_gradients.reverse()`.  The
parameter-update block is commented out in the source, so the returned
network is the unchanged `self`; out-of-bounds indexing panics are modelled
as `none`.  Returns `(self, loss, reversed local gradients)`. -/
def train (exp log2 : ℚ → ℚ) (net : NeuralNetwork) (input : List ℚ)
    (target : List ℚ) : Option (NeuralNetwork × ℚ × List (List ℚ)) :=
  match compute_ex exp net input with
  | none => none
  | some result =>
    let error := cross_entropy_loss log2 result.result target
    match result.derivatives.get? 1 with
    | none => none
    | some d1 =>
      let outGrad := hadamard (vecSub result.result target) d1
      match net.layers.get? 1 with
      | none => none
      | some layer1 =>
        let propagated := tr_mul layer1.weights outGrad
        match add_biases_loop propagated layer1.biases with
        | none => none
        | some withBias =>
          match result.derivatives.get? 0 with
          | none => none
          | some d0 =>
            some (net, error, [hadamard withBias d0, outGrad])

/-- `k` successive `train` calls, threading the (unchanged) network. -/
def trainIter (exp log2 : ℚ → ℚ) (input target : List ℚ) :
    NeuralNetwork → Nat → Option NeuralNetwork
  | net, 0 => some net
  | net, k + 1 =>
    match train exp log2 net input target with
    | some (net', _, _) => trainIter exp log2 input target net' k
    | none => none

/-- The fixed topology built by `new_untrained` (src/network.rs):
exactly two layers, 784 → 20 (hidden) → 10 (output). -/
def NeuralNetwork.wellFormed (net : NeuralNetwork) : Prop :=
  ∃ l0 l1, net.layers = [l0, l1]
    ∧ l0.weights.length = 20 ∧ (∀ r ∈ l0.weights, r.length = 784)
    ∧ l0.biases.length = 20
    ∧ l1.weights.length = 10 ∧ (∀ r ∈ l1.weights, r.length = 20)
    ∧ l1.biases.length = 10

/-! ### Persistence (src/network.rs `save`/`load`).

Modelled from the spec: `save`/`load` delegate the document encoding to the
external `serde_json` crate and the file system, neither of which is source
of this repository.  Per §4.3/§6 of the specification they "serialize /
deserialize the full layer list (weight matrices + bias vectors) to a
structured, human-readable document"; the document is modelled as a small
JSON value tree, the file transport as the identity on that tree. -/

inductive Json
  | num (q : ℚ)
  | arr (items : List Json)
  | obj (fields : List (String × Json))
deriving Repr

/-- Encode a vector as a JSON array of numbers. -/
def encVec (v : List ℚ) : Json := .arr (v.map .num)

/-- Encode a matrix as a JSON array of row arrays. -/
def encMat (m : List (List ℚ)) : Json := .arr (m.map encVec)

/-- Encode a `Layer` as an object with its two fields. -/
def encLayer (l : Layer) : Json :=
  .obj [("weights", encMat l.weights), ("biases", encVec l.biases)]

/-- `NeuralNetwork::save`, with the external serializer modelled from the
spec: the produced document holds the ordered layer list. -/
def save (net : NeuralNetwork) : Json :=
  .obj [("layers", .arr (net.layers.map encLayer))]

/-- Decode every element of a list, failing if any element fails. -/
def optTraverse (f : α → Option β) : List α → Option (List β)
  | [] => some []
  | a :: l =>
    match f a, optTraverse f l with
    | some b, some bs => some (b :: bs)
    | _, _ => none

/-- Decode a JSON number. -/
def decNum : Json → Option ℚ
  | .num q => some q
  | _ => none

/-- Decode a vector. -/
def decVec : Json → Option (List ℚ)
  | .arr items => optTraverse decNum items
  | _ => none

/-- Decode a matrix. -/
def decMat : Json → Option (List (List ℚ))
  | .arr items => optTraverse decVec items
  | _ => none

/-- Decode a `Layer`. -/
def decLayer : Json → Option Layer
  | .obj [("weights", w), ("biases", b)] =>
    match decMat w, decVec b with
    | some weights, some biases => some ⟨weights, biases⟩
    | _, _ => none
  | _ => none

/-- `NeuralNetwork::load`, with the external deserializer modelled from the
spec; a malformed document is a parse error (`none`). -/
def load (doc : Json) : Option NeuralNetwork :=
  match doc with
  | .obj [("layers", .arr items)] =>
    match optTraverse decLayer items with
    | some layers => some ⟨layers⟩
    | none => none
  | _ => none

/-! ### Helper lemmas -/

theorem readExact_error_nil {n : Nat} {s s' : ByteStream} {e : Unit}
    (h : readExact n s = (.error e, s')) : s' = [] := by
  unfold readExact at h
  split at h
  · exact absurd h (by simp)
  · exact (Prod.mk.injEq _ _ _ _ ▸ h).2.symm

theorem read_be_u32_error_nil {s s' : ByteStream} {e : Unit}
    (h : read_be_u32 s = (.error e, s')) : s' = [] := by
  unfold read_be_u32 at h
  split at h
  · exact absurd h (by simp)
  · next heq =>
    cases h
    exact readExact_error_nil heq

theorem read_be_u32_nil : read_be_u32 [] = (.error (), []) := rfl

theorem read_be_u32_ok_drop {s s' : ByteStream} {m : Nat}
    (h : read_be_u32 s = (.ok m, s')) : s' = List.drop 4 s := by
  unfold read_be_u32 at h
  split at h
  · next heq =>
    unfold readExact at heq
    split at heq
    · cases heq; cases h; rfl
    · exact absurd heq (by simp)
  · exact absurd h (by simp)

theorem verify_magic_ok_drop {s s' : ByteStream} {k : DataKind}
    (h : verify_magic s k = (.ok (), s')) : s' = List.drop 4 s := by
  unfold verify_magic at h
  split at h
  · exact absurd h (by simp)
  · next heq =>
    split at h
    · cases h; exact read_be_u32_ok_drop heq
    · exact absurd h (by simp)

theorem try_from_images_spec {input : ByteStream} {t : TrainingImageSet}
    (h : TrainingImageSet.try_from input = .ok t) :
    t.images = List.drop 8 input := by
  unfold TrainingImageSet.try_from at h
  split at h
  · exact absurd h (by simp)
  · next heq =>
    split at h
    · exact absurd h (by simp)
    · next heq2 =>
      cases h
      have h1 := verify_magic_ok_drop heq
      have h2 := read_be_u32_ok_drop heq2
      subst h1
      simpa [List.drop_drop] using h2

theorem try_from_labels_spec {input : ByteStream} {t : TrainingLabelSet}
    (h : TrainingLabelSet.try_from input = .ok t) :
    t.labels = List.drop 8 input := by
  unfold TrainingLabelSet.try_from at h
  split at h
  · exact absurd h (by simp)
  · next heq =>
    split at h
    · exact absurd h (by simp)
    · next heq2 =>
      cases h
      have h1 := verify_magic_ok_drop heq
      have h2 := read_be_u32_ok_drop heq2
      subst h1
      simpa [List.drop_drop] using h2

/-! ### C1 -/

/-- C1 (counterexample): the images-stream magic constant in the source is
`0x00000801` (2049), not `0x00000803` (2051): a pair of streams whose image
magic reads as 2049 — hence differs from 2051 — is accepted by
`from_readers`, and no `MagicNotFound` error is produced. -/
theorem c1_counterexample :
    (read_be_u32 [0x00, 0x00, 0x08, 0x01, 0, 0, 0, 0]).1 = Except.ok 2049
    ∧ (2049 : Nat) ≠ 0x00000803
    ∧ TrainingDataset.from_readers [0x00, 0x00, 0x08, 0x01, 0, 0, 0, 0]
        [0x00, 0x00, 0x08, 0x01, 0, 0, 0, 0]
      = Except.ok ⟨⟨[], 0⟩, ⟨[], 0⟩, 0⟩ := ⟨rfl, by decide, rfl⟩

/-- C1 (amended): the magic constant for the images stream is `0x00000801`
(the source uses one constant, `MAGIC`, for both streams).  For every image
byte source whose first 4 bytes, read as a big-endian u32, differ from
`MAGIC = 0x00000801`, `from_readers` fails with `MagicNotFound` carrying the
found value and kind `Image`, and no loader is constructed. -/
theorem c1_magic_mismatch_rejected (imgs lbls : ByteStream) (m : Nat)
    (s' : ByteStream) (hread : read_be_u32 imgs = (.ok m, s'))
    (hm : m ≠ MAGIC) :
    TrainingDataset.from_readers imgs lbls
      = .error (.magicNotFound m .image) := by
  unfold TrainingDataset.from_readers TrainingImageSet.try_from verify_magic
  rw [hread]
  simp [hm]

/-- C1 (witness): a found magic of `0x00000804` (2052) yields
`MagicNotFound{found=0x00000804, kind=Image}`. -/
theorem c1_witness :
    TrainingDataset.from_readers [0x00, 0x00, 0x08, 0x04] []
      = .error (.magicNotFound 0x00000804 .image) :=
  c1_magic_mismatch_rejected [0x00, 0x00, 0x08, 0x04] [] 2052 [] rfl
    (by decide)

/-! ### C8 -/

/-- C8: whenever both headers parse and the declared counts differ,
`from_readers` fails with `InvalidLabelCount` carrying both counts and no
loader is constructed. -/
theorem c8_unequal_counts_rejected (imgs lbls : ByteStream)
    (ti : TrainingImageSet) (tl : TrainingLabelSet)
    (hi : TrainingImageSet.try_from imgs = .ok ti)
    (hl : TrainingLabelSet.try_from lbls = .ok tl)
    (hne : ti.image_count ≠ tl.label_count) :
    TrainingDataset.from_readers imgs lbls
      = .error (.invalidLabelCount ti.image_count tl.label_count) := by
  unfold TrainingDataset.from_readers
  rw [hi, hl]
  simp [hne]

/-- C8 (witness): 3 declared images against 2 declared labels yields
`InvalidLabelCount{sample_count=3, label_count=2}`. -/
theorem c8_witness :
    TrainingDataset.from_readers [0x00, 0x00, 0x08, 0x01, 0, 0, 0, 3]
        [0x00, 0x00, 0x08, 0x01, 0, 0, 0, 2]
      = .error (.invalidLabelCount 3 2) :=
  c8_unequal_counts_rejected _ _ ⟨[], 3⟩ ⟨[], 2⟩ rfl rfl (by decide)

/-! ### C2 -/

/-- C2 (counterexample): there is no shared `ImageSize` record.  On a pair of
streams laid out as the claim describes (magic, count=2, one shared 2×2
geometry, then two raw 4-byte pixel blocks `[1,2,3,4]` and `[5,6,7,8]`), the
loader is constructed without consuming any geometry, the first image record
consumes the "shared" geometry bytes as its own per-record width/height, and
the second pull hits end-of-sequence (the bytes `[5,6,7,8]` are consumed as
a width field) although two items were declared — the second 4-byte pixel
block is never delivered as an image. -/
theorem c2_counterexample :
    TrainingDataset.from_readers
        [0x00, 0x00, 0x08, 0x01, 0, 0, 0, 2, 0, 0, 0, 2, 0, 0, 0, 2,
         1, 2, 3, 4, 5, 6, 7, 8]
        [0x00, 0x00, 0x08, 0x01, 0, 0, 0, 2, 7, 7]
      = Except.ok ⟨⟨[0, 0, 0, 2, 0, 0, 0, 2, 1, 2, 3, 4, 5, 6, 7, 8], 2⟩,
                   ⟨[7, 7], 2⟩, 0⟩
    ∧ (TrainingDataset.next
        ⟨⟨[0, 0, 0, 2, 0, 0, 0, 2, 1, 2, 3, 4, 5, 6, 7, 8], 2⟩,
         ⟨[7, 7], 2⟩, 0⟩).1
      = some (.ok ⟨⟨⟨2, 2⟩, [1, 2, 3, 4]⟩, ⟨7⟩⟩)
    ∧ (TrainingDataset.next
        ⟨⟨[0, 0, 0, 2, 0, 0, 0, 2, 1, 2, 3, 4, 5, 6, 7, 8], 2⟩,
         ⟨[7, 7], 2⟩, 0⟩).2
      = ⟨⟨[5, 6, 7, 8], 2⟩, ⟨[7], 2⟩, 1⟩
    ∧ (TrainingDataset.next ⟨⟨[5, 6, 7, 8], 2⟩, ⟨[7], 2⟩, 1⟩).1 = none :=
  ⟨rfl, rfl, rfl, rfl⟩

/-- C2 (amended): loader construction reads only the magic and the item
count (8 bytes) from each source and no shared `ImageSize`; instead every
per-item image record itself begins with its own width and height (two
4-byte big-endian integers) followed by `width*height` pixel bytes. -/
theorem c2_image_records_carry_geometry :
    (∀ (s : ByteStream) (w : Nat) (s₁ : ByteStream) (h : Nat)
       (s₂ : ByteStream) (px : List Nat) (s₃ : ByteStream),
       read_be_u32 s = (.ok w, s₁) →
       read_be_u32 s₁ = (.ok h, s₂) →
       readExact (w * h) s₂ = (.ok px, s₃) →
       Image.read_from_bytes s = (.ok ⟨⟨w, h⟩, px⟩, s₃))
    ∧ (∀ (imgs lbls : ByteStream) (d : TrainingDataset),
       TrainingDataset.from_readers imgs lbls = .ok d →
       d.images.images = List.drop 8 imgs ∧ d.labels.labels = List.drop 8 lbls) := by
  constructor
  · intro s w s₁ h s₂ px s₃ hw hh hpx
    simp only [Image.read_from_bytes, hw, hh, hpx]
  · intro imgs lbls d h
    unfold TrainingDataset.from_readers at h
    split at h
    · exact absurd h (by simp)
    · next ti hti =>
      split at h
      · exact absurd h (by simp)
      · next tl htl =>
        split at h
        · exact absurd h (by simp)
        · cases h
          exact ⟨try_from_images_spec hti, try_from_labels_spec htl⟩

/-- C2 (witness): a concrete image record decoding its own 2×2 geometry and
four pixels, and a concrete loader whose post-construction streams are
exactly the inputs with 8 header bytes dropped. -/
theorem c2_witness :
    Image.read_from_bytes [0, 0, 0, 2, 0, 0, 0, 2, 9, 9, 9, 9, 5, 5]
      = (.ok ⟨⟨2, 2⟩, [9, 9, 9, 9]⟩, [5, 5])
    ∧ ((⟨⟨[9], 1⟩, ⟨[7], 1⟩, 0⟩ : TrainingDataset).images.images
         = List.drop 8 [0x00, 0x00, 0x08, 0x01, 0, 0, 0, 1, 9]
       ∧ (⟨⟨[9], 1⟩, ⟨[7], 1⟩, 0⟩ : TrainingDataset).labels.labels
         = List.drop 8 [0x00, 0x00, 0x08, 0x01, 0, 0, 0, 1, 7]) :=
  ⟨c2_image_records_carry_geometry.1 [0, 0, 0, 2, 0, 0, 0, 2, 9, 9, 9, 9, 5, 5]
      2 [0, 0, 0, 2, 9, 9, 9, 9, 5, 5] 2 [9, 9, 9, 9, 5, 5] [9, 9, 9, 9] [5, 5]
      rfl rfl rfl,
   c2_image_records_carry_geometry.2 [0x00, 0x00, 0x08, 0x01, 0, 0, 0, 1, 9]
      [0x00, 0x00, 0x08, 0x01, 0, 0, 0, 1, 7] ⟨⟨[9], 1⟩, ⟨[7], 1⟩, 0⟩ rfl⟩

/-! ### DataIter lemmas (C3, C10) -/

theorem dataIterNext_no_error {T : Type} (d : Decoder T) (s : ByteStream)
    (r : Except Unit T) (s' : ByteStream)
    (h : dataIterNext d s = (some r, s')) : ∃ t, r = .ok t := by
  unfold dataIterNext at h
  rcases hd : d s with ⟨item, s₂⟩
  rw [hd] at h
  cases item with
  | ok t =>
    simp only [stop_on_io_error, Bool.not_true, Bool.false_eq_true,
      if_false, ite_false] at h
    cases h
    exact ⟨t, rfl⟩
  | error e =>
    simp [stop_on_io_error] at h

theorem dataIterNext_snd {T : Type} (d : Decoder T) (s : ByteStream) :
    (dataIterNext d s).2 = (d s).2 := by
  rcases hd : d s with ⟨item, s'⟩
  cases hI : stop_on_io_error item <;> simp [dataIterNext, hd, hI]

theorem dataIterNext_error_none {T : Type} (d : Decoder T) (s : ByteStream)
    (e : Unit) (s' : ByteStream) (h : d s = (.error e, s')) :
    (dataIterNext d s).1 = none := by
  simp [dataIterNext, h, stop_on_io_error]

theorem image_rfb_error_nil {s s' : ByteStream} {e : Unit}
    (h : Image.read_from_bytes s = (.error e, s')) : s' = [] := by
  unfold Image.read_from_bytes at h
  split at h
  · next heq => cases h; exact read_be_u32_error_nil heq
  · next heq =>
    split at h
    · next heq2 => cases h; exact read_be_u32_error_nil heq2
    · next heq2 =>
      split at h
      · next heq3 => cases h; exact readExact_error_nil heq3
      · exact absurd h (by simp)

theorem label_rfb_error_nil {s s' : ByteStream} {e : Unit}
    (h : Label.read_from_bytes s = (.error e, s')) : s' = [] := by
  cases s with
  | nil => cases h; rfl
  | cons b rest => exact absurd h (by simp [Label.read_from_bytes, read_u8])

theorem image_pullK_nil : ∀ k, pullK Image.read_from_bytes [] k = none := by
  intro k
  induction k with
  | zero => rfl
  | succ k ih =>
    show pullK Image.read_from_bytes (dataIterNext Image.read_from_bytes []).2 k = none
    have h2 : (dataIterNext Image.read_from_bytes []).2 = [] := rfl
    rw [h2]
    exact ih

theorem label_pullK_nil : ∀ k, pullK Label.read_from_bytes [] k = none := by
  intro k
  induction k with
  | zero => rfl
  | succ k ih =>
    show pullK Label.read_from_bytes (dataIterNext Label.read_from_bytes []).2 k = none
    have h2 : (dataIterNext Label.read_from_bytes []).2 = [] := rfl
    rw [h2]
    exact ih

/-! ### C3 -/

/-- C3: with the `stop_on_io_error` predicate, (i)/(ii) a pull on the lazy
record sequence never delivers an erroring decode result to the consumer
(for the program's two record types), and (iii)/(iv) once a decode errors,
that pull and every later pull return end-of-sequence (`none`), so the
consumer observes only the successful prefix. -/
theorem c3_error_ends_sequence :
    (∀ (s : ByteStream) (r : Except Unit Image),
       (dataIterNext Image.read_from_bytes s).1 = some r → ∃ t, r = .ok t)
    ∧ (∀ (s : ByteStream) (r : Except Unit Label),
       (dataIterNext Label.read_from_bytes s).1 = some r → ∃ t, r = .ok t)
    ∧ (∀ (s s' : ByteStream) (e : Unit),
       Image.read_from_bytes s = (.error e, s') →
       ∀ k, pullK Image.read_from_bytes s k = none)
    ∧ (∀ (s s' : ByteStream) (e : Unit),
       Label.read_from_bytes s = (.error e, s') →
       ∀ k, pullK Label.read_from_bytes s k = none) := by
  refine ⟨?_, ?_, ?_, ?_⟩
  · intro s r h
    rcases hn : dataIterNext Image.read_from_bytes s with ⟨o, s'⟩
    rw [hn] at h
    cases h
    exact dataIterNext_no_error _ s r s' hn
  · intro s r h
    rcases hn : dataIterNext Label.read_from_bytes s with ⟨o, s'⟩
    rw [hn] at h
    cases h
    exact dataIterNext_no_error _ s r s' hn
  · intro s s' e h k
    cases k with
    | zero => exact dataIterNext_error_none _ s e s' h
    | succ k =>
      show pullK Image.read_from_bytes (dataIterNext Image.read_from_bytes s).2 k = none
      have h2 : (dataIterNext Image.read_from_bytes s).2 = s' := by
        rw [dataIterNext_snd, h]
      rw [h2, image_rfb_error_nil h]
      exact image_pullK_nil k
  · intro s s' e h k
    cases k with
    | zero => exact dataIterNext_error_none _ s e s' h
    | succ k =>
      show pullK Label.read_from_bytes (dataIterNext Label.read_from_bytes s).2 k = none
      have h2 : (dataIterNext Label.read_from_bytes s).2 = s' := by
        rw [dataIterNext_snd, h]
      rw [h2, label_rfb_error_nil h]
      exact label_pullK_nil k

/-- C3 (witness): on the one-byte source `[0]` the image decode errors
(fewer than 4 bytes for the width), and the pulls numbered 0 and 2 of the
image record sequence both return end-of-sequence; on the empty source the
label decode errors and pull 1 of the label sequence is end-of-sequence. -/
theorem c3_witness :
    pullK Image.read_from_bytes [0] 0 = none
    ∧ pullK Image.read_from_bytes [0] 2 = none
    ∧ pullK Label.read_from_bytes [] 1 = none :=
  ⟨c3_error_ends_sequence.2.2.1 [0] [] () rfl 0,
   c3_error_ends_sequence.2.2.1 [0] [] () rfl 2,
   c3_error_ends_sequence.2.2.2 [] [] () rfl 1⟩

/-! ### C10 -/

/-- C10: `TrainingDataset::next` never yields `Some(Err(_))`: because both
underlying record sequences are built with the `stop_on_io_error` predicate
they never produce an `Err` item, so every item the dataset yields is `Ok`
and the `Some(Err)` match arms are unreachable. -/
theorem c10_next_never_errs (d : TrainingDataset)
    (r : Except ErrorKind LabeledTrainingData) (d' : TrainingDataset)
    (h : TrainingDataset.next d = (some r, d')) : ∃ x, r = .ok x := by
  unfold TrainingDataset.next at h
  split at h
  · split at h
    · split at h
      · cases h
        exact ⟨_, rfl⟩
      · next heq =>
        obtain ⟨t, ht⟩ := dataIterNext_no_error _ _ _ _ heq
        exact absurd ht (by simp)
      · exact absurd h (by simp)
    · next heq =>
      obtain ⟨t, ht⟩ := dataIterNext_no_error _ _ _ _ heq
      exact absurd ht (by simp)
    · exact absurd h (by simp)
  · exact absurd h (by simp)

/-- C10 (witness): a concrete successful pull, checked through the theorem. -/
theorem c10_witness :
    ∃ x, (Except.ok ⟨⟨⟨2, 2⟩, [1, 2, 3, 4]⟩, ⟨7⟩⟩ :
           Except ErrorKind LabeledTrainingData) = .ok x :=
  c10_next_never_errs
    ⟨⟨[0, 0, 0, 2, 0, 0, 0, 2, 1, 2, 3, 4], 1⟩, ⟨[7], 1⟩, 0⟩
    (.ok ⟨⟨⟨2, 2⟩, [1, 2, 3, 4]⟩, ⟨7⟩⟩)
    ⟨⟨[], 1⟩, ⟨[], 1⟩, 1⟩ rfl

/-! ### C7 -/

theorem next_len (d : TrainingDataset) : (d.next.2).len = d.len := by
  unfold TrainingDataset.next
  split
  · split
    · split <;> rfl
    · rfl
    · rfl
  · rfl

theorem next_read_le (d : TrainingDataset) (h : d.read ≤ d.len) :
    (d.next.2).read ≤ (d.next.2).len := by
  rw [next_len]
  unfold TrainingDataset.next
  split
  · next hlt =>
    split
    · split
      · simpa [TrainingDataset.len] using hlt
      · exact h
      · exact h
    · exact h
    · exact h
  · exact h

theorem from_readers_read_zero {imgs lbls : ByteStream} {d : TrainingDataset}
    (h : TrainingDataset.from_readers imgs lbls = .ok d) : d.read = 0 := by
  unfold TrainingDataset.from_readers at h
  split at h
  · exact absurd h (by simp)
  · split at h
    · exact absurd h (by simp)
    · split at h
      · exact absurd h (by simp)
      · cases h; rfl

theorem iterate_len (d : TrainingDataset) :
    ∀ k, (d.iterate k).len = d.len := by
  intro k
  induction k generalizing d with
  | zero => rfl
  | succ k ih =>
    show ((d.next.2).iterate k).len = d.len
    rw [ih, next_len]

theorem iterate_read_le (d : TrainingDataset) (h : d.read ≤ d.len) :
    ∀ k, (d.iterate k).read ≤ (d.iterate k).len := by
  intro k
  induction k generalizing d with
  | zero => exact h
  | succ k ih => exact ih _ (next_read_le d h)

/-- C7: on every dataset built by `from_readers`, (i) a pull that yields a
successful `LabeledTrainingData` increments the running `read` counter by
exactly one, (ii) after any number of pulls the counter never exceeds the
validated item count, and (iii) once the counter equals that count, `next`
returns end-of-sequence and leaves the state — in particular both underlying
streams — completely untouched. -/
theorem c7_read_counter (imgs lbls : ByteStream) (d : TrainingDataset)
    (h : TrainingDataset.from_readers imgs lbls = .ok d) :
    (∀ (st : TrainingDataset) (x : LabeledTrainingData) (st' : TrainingDataset),
       TrainingDataset.next st = (some (.ok x), st') → st'.read = st.read + 1)
    ∧ (∀ k, (d.iterate k).read ≤ d.len)
    ∧ (∀ st : TrainingDataset, st.read = st.len → st.next = (none, st)) := by
  refine ⟨?_, ?_, ?_⟩
  · intro st x st' hst
    unfold TrainingDataset.next at hst
    split at hst
    · split at hst
      · split at hst
        · cases hst; rfl
        · exact absurd hst (by simp)
        · exact absurd hst (by simp)
      · exact absurd hst (by simp)
      · exact absurd hst (by simp)
    · exact absurd hst (by simp)
  · intro k
    have h0 : d.read ≤ d.len := by
      rw [from_readers_read_zero h]; exact Nat.zero_le _
    have := iterate_read_le d h0 k
    rwa [iterate_len d k] at this
  · intro st hst
    unfold TrainingDataset.next
    have : ¬ st.read < st.len := by omega
    simp [this]

/-- C7 (witness): the dataset built from the synthetic 2-image/2-label
streams of the source's test module keeps `read ≤ len` after three pulls. -/
theorem c7_witness :
    ((⟨⟨[0, 0, 0, 2, 0, 0, 0, 2, 1, 2, 3, 4,
         0, 0, 0, 2, 0, 0, 0, 2, 1, 2, 3, 4], 2⟩,
       ⟨[7, 7], 2⟩, 0⟩ : TrainingDataset).iterate 3).read
      ≤ (⟨⟨[0, 0, 0, 2, 0, 0, 0, 2, 1, 2, 3, 4,
            0, 0, 0, 2, 0, 0, 0, 2, 1, 2, 3, 4], 2⟩,
          ⟨[7, 7], 2⟩, 0⟩ : TrainingDataset).len :=
  (c7_read_counter
    [0x00, 0x00, 0x08, 0x01, 0, 0, 0, 2,
     0, 0, 0, 2, 0, 0, 0, 2, 1, 2, 3, 4,
     0, 0, 0, 2, 0, 0, 0, 2, 1, 2, 3, 4]
    [0x00, 0x00, 0x08, 0x01, 0, 0, 0, 2, 7, 7]
    ⟨⟨[0, 0, 0, 2, 0, 0, 0, 2, 1, 2, 3, 4,
       0, 0, 0, 2, 0, 0, 0, 2, 1, 2, 3, 4], 2⟩,
      ⟨[7, 7], 2⟩, 0⟩ rfl).2.1 3

/-! ### Network lemmas (C4, C5, C6) -/

theorem add_biases_loop_eq (bs : List ℚ) : ∀ v : List ℚ, bs.length ≤ v.length →
    add_biases_loop v bs = some (addInto v bs) := by
  induction bs with
  | nil => intro v h; simp [add_biases_loop, addInto, vecAdd]
  | cons b bs ih =>
    intro v h
    cases v with
    | nil => simp at h
    | cons x v =>
      simp only [add_biases_loop]
      rw [ih v (by simpa using h)]
      simp [addInto, vecAdd]

theorem tr_mul_length (m : List (List ℚ)) (v : List ℚ) :
    (tr_mul m v).length = ncols m := by
  simp [tr_mul]

theorem tr_mul_eq_transposeM (m : List (List ℚ)) (v : List ℚ) :
    tr_mul m v = matVecMul (transposeM m) v := by
  simp only [tr_mul, transposeM, matVecMul, List.map_map]
  rfl

theorem ncols_of_rows {m : List (List ℚ)} {n : Nat}
    (hne : m ≠ []) (hr : ∀ r ∈ m, r.length = n) : ncols m = n := by
  cases m with
  | nil => exact absurd rfl hne
  | cons r rows =>
    show ((r :: rows).headD []).length = n
    exact hr r (List.mem_cons_self r rows)

theorem compute_ex_eq (exp : ℚ → ℚ) (net : NeuralNetwork) (input : List ℚ)
    (l0 l1 : Layer) (hl : net.layers = [l0, l1]) (hlen : input.length = 784) :
    compute_ex exp net input =
      some ⟨softmax exp
              (vecAdd (matVecMul l1.weights
                 ((vecAdd (matVecMul l0.weights input) l0.biases).map (relu exp)))
                 l1.biases),
            [input,
             (vecAdd (matVecMul l0.weights input) l0.biases).map (relu exp)],
            [(vecAdd (matVecMul l0.weights input) l0.biases).map (relu_prime exp),
             softmax_prime exp
               (vecAdd (matVecMul l1.weights
                  ((vecAdd (matVecMul l0.weights input) l0.biases).map (relu exp)))
                  l1.biases)]⟩ := by
  unfold compute_ex
  rw [hl]
  simp [hlen, INPUT_LAYER_SIZE, computeLoop]

theorem train_eq (exp log2 : ℚ → ℚ) (net : NeuralNetwork) (input target : List ℚ)
    (l0 l1 : Layer) (hl : net.layers = [l0, l1])
    (hble : l1.biases.length ≤ ncols l1.weights)
    (r : NetworkResult) (dA dB : List ℚ)
    (hr : compute_ex exp net input = some r)
    (hd : r.derivatives = [dA, dB]) :
    train exp log2 net input target =
      some (net, cross_entropy_loss log2 r.result target,
        [hadamard
           (addInto (tr_mul l1.weights (hadamard (vecSub r.result target) dB))
             l1.biases)
           dA,
         hadamard (vecSub r.result target) dB]) := by
  unfold train
  rw [hr]
  simp only [hd, hl, List.get?]
  rw [add_biases_loop_eq l1.biases _ (by rw [tr_mul_length]; exact hble)]

/-- The all-zero network with the program's fixed 784 → 20 → 10 topology,
used to instantiate shape hypotheses. -/
def zeroNet : NeuralNetwork :=
  ⟨[⟨List.replicate 20 (List.replicate 784 (0 : ℚ)), List.replicate 20 0⟩,
    ⟨List.replicate 10 (List.replicate 20 (0 : ℚ)), List.replicate 10 0⟩]⟩

theorem zeroNet_wf : zeroNet.wellFormed := by
  refine ⟨_, _, rfl, by simp only [List.length_replicate], ?_,
    by simp only [List.length_replicate], by simp only [List.length_replicate],
    ?_, by simp only [List.length_replicate]⟩
  · intro r hr
    rw [List.eq_of_mem_replicate hr]
    simp only [List.length_replicate]
  · intro r hr
    rw [List.eq_of_mem_replicate hr]
    simp only [List.length_replicate]

/-! ### C4 -/

/-- C4: under the shipped behavior the parameter-update block of `train` is
dead code, so for every network of the program's topology, any number of
`train` calls (on a valid 784-length input) returns the network with every
layer's weight matrix and bias vector unchanged. -/
theorem c4_train_is_noop (exp log2 : ℚ → ℚ) (net : NeuralNetwork)
    (input target : List ℚ) (k : Nat) (hwf : net.wellFormed)
    (hlen : input.length = 784) :
    trainIter exp log2 input target net k = some net := by
  obtain ⟨l0, l1, hl, hw0, hr0, hb0, hw1, hr1, hb1⟩ := hwf
  have hne : l1.weights ≠ [] := by
    intro hnil
    rw [hnil] at hw1
    simp at hw1
  have hble : l1.biases.length ≤ ncols l1.weights := by
    rw [ncols_of_rows hne hr1, hb1]
    norm_num
  have hce := compute_ex_eq exp net input l0 l1 hl hlen
  have hte := train_eq exp log2 net input target l0 l1 hl hble _ _ _ hce rfl
  induction k with
  | zero => rfl
  | succ k ih =>
    unfold trainIter
    rw [hte]
    exact ih

/-- C4 (witness): two `train` calls on the zero network leave it unchanged. -/
theorem c4_witness :
    trainIter (fun _ => 1) (fun _ => 1) (List.replicate 784 0)
      (List.replicate 10 0) zeroNet 2 = some zeroNet :=
  c4_train_is_noop (fun _ => 1) (fun _ => 1) zeroNet (List.replicate 784 0)
    (List.replicate 10 0) 2 zeroNet_wf (by simp only [List.length_replicate])

/-! ### C5 -/

/-- C5: in the backward pass the non-output layer's local gradient is
`transpose(next_layer.weights) · next_local_gradient`, with the next layer's
bias values then added elementwise into this propagated vector (slot by
slot, over the first `biases.length` slots), and the result multiplied
elementwise by the current layer's cached activation derivative. -/
theorem c5_backprop_gradient (exp log2 : ℚ → ℚ) (net : NeuralNetwork)
    (input target : List ℚ) (hwf : net.wellFormed)
    (hlen : input.length = 784) :
    ∃ (r : NetworkResult) (loss : ℚ) (grads : List (List ℚ)),
      compute_ex exp net input = some r
      ∧ train exp log2 net input target = some (net, loss, grads)
      ∧ grads.getD 0 [] =
          hadamard
            (addInto
              (matVecMul (transposeM (net.layers.getD 1 ⟨[], []⟩).weights)
                (hadamard (vecSub r.result target) (r.derivatives.getD 1 [])))
              (net.layers.getD 1 ⟨[], []⟩).biases)
            (r.derivatives.getD 0 []) := by
  obtain ⟨l0, l1, hl, hw0, hr0, hb0, hw1, hr1, hb1⟩ := hwf
  have hne : l1.weights ≠ [] := by
    intro hnil
    rw [hnil] at hw1
    simp at hw1
  have hble : l1.biases.length ≤ ncols l1.weights := by
    rw [ncols_of_rows hne hr1, hb1]
    norm_num
  have hce := compute_ex_eq exp net input l0 l1 hl hlen
  refine ⟨_, _, _, hce, train_eq exp log2 net input target l0 l1 hl hble _ _ _ hce rfl, ?_⟩
  rw [← tr_mul_eq_transposeM]
  simp [hl, List.getD]

/-- C5 (witness): the backward-pass gradient law instantiated on the zero
network and the zero input/target. -/
theorem c5_witness :
    ∃ (r : NetworkResult) (loss : ℚ) (grads : List (List ℚ)),
      compute_ex (fun _ => 1) zeroNet (List.replicate 784 0) = some r
      ∧ train (fun _ => 1) (fun _ => 1) zeroNet (List.replicate 784 0)
          (List.replicate 10 0) = some (zeroNet, loss, grads)
      ∧ grads.getD 0 [] =
          hadamard
            (addInto
              (matVecMul (transposeM (zeroNet.layers.getD 1 ⟨[], []⟩).weights)
                (hadamard (vecSub r.result (List.replicate 10 0))
                  (r.derivatives.getD 1 [])))
              (zeroNet.layers.getD 1 ⟨[], []⟩).biases)
            (r.derivatives.getD 0 []) :=
  c5_backprop_gradient (fun _ => 1) (fun _ => 1) zeroNet
    (List.replicate 784 0) (List.replicate 10 0) zeroNet_wf
    (by simp only [List.length_replicate])

/-! ### C6 -/

theorem sum_map_div (l : List ℚ) (s : ℚ) :
    (l.map (fun x => x / s)).sum = l.sum / s := by
  induction l with
  | nil => simp
  | cons x l ih => simp [ih, add_div]

theorem softmax_prob (exp : ℚ → ℚ) (v : List ℚ) (hv : v ≠ [])
    (hexp : ∀ x, 0 < exp x) :
    (∀ x ∈ softmax exp v, 0 ≤ x ∧ x ≤ 1) ∧ (softmax exp v).sum = 1 := by
  have hsm : softmax exp v
      = (v.map (fun x => exp (x - listMax v))).map
          (fun x => x / (v.map (fun x => exp (x - listMax v))).sum) := rfl
  have hene : v.map (fun x => exp (x - listMax v)) ≠ [] := by
    simpa using hv
  have hpos : ∀ x ∈ v.map (fun x => exp (x - listMax v)), 0 < x := by
    intro x hx
    obtain ⟨y, -, rfl⟩ := List.mem_map.mp hx
    exact hexp _
  have hspos : 0 < (v.map (fun x => exp (x - listMax v))).sum :=
    List.sum_pos _ hpos hene
  constructor
  · intro x hx
    rw [hsm] at hx
    obtain ⟨y, hy, rfl⟩ := List.mem_map.mp hx
    refine ⟨div_nonneg (hpos y hy).le hspos.le, ?_⟩
    rw [div_le_one hspos]
    exact List.single_le_sum (fun z hz => (hpos z hz).le) y hy
  · rw [hsm, sum_map_div]
    exact div_self (ne_of_gt hspos)

/-- C6: for every network of the program's topology and every 784-length
input, provided the exponential is positive everywhere (as the real `exp`
is), `compute` returns a vector of length 10 whose entries all lie in [0,1]
and sum to exactly 1 — the softmax normalization of the last layer's
pre-activation (exactly, since `f64` is modelled as `ℚ`). -/
theorem c6_compute_probability (exp : ℚ → ℚ) (net : NeuralNetwork)
    (input : List ℚ) (hwf : net.wellFormed) (hlen : input.length = 784)
    (hexp : ∀ x, 0 < exp x) :
    ∃ out, compute exp net input = some out
      ∧ out.length = 10
      ∧ (∀ x ∈ out, 0 ≤ x ∧ x ≤ 1)
      ∧ out.sum = 1 := by
  obtain ⟨l0, l1, hl, hw0, hr0, hb0, hw1, hr1, hb1⟩ := hwf
  have hce := compute_ex_eq exp net input l0 l1 hl hlen
  have hT2len :
      (vecAdd (matVecMul l1.weights
         ((vecAdd (matVecMul l0.weights input) l0.biases).map (relu exp)))
         l1.biases).length = 10 := by
    simp [vecAdd, matVecMul, hw1, hb1]
  have hT2ne :
      vecAdd (matVecMul l1.weights
         ((vecAdd (matVecMul l0.weights input) l0.biases).map (relu exp)))
         l1.biases ≠ [] := by
    intro hnil
    rw [hnil] at hT2len
    simp at hT2len
  obtain ⟨hmem, hsum⟩ := softmax_prob exp _ hT2ne hexp
  refine ⟨_, by simp [compute, hce], ?_, hmem, hsum⟩
  simp [softmax, hT2len]

/-- C6 (witness): the probability-vector law instantiated on the zero
network, the zero input and the constant-one exponential. -/
theorem c6_witness :
    ∃ out, compute (fun _ => 1) zeroNet (List.replicate 784 0) = some out
      ∧ out.length = 10
      ∧ (∀ x ∈ out, 0 ≤ x ∧ x ≤ 1)
      ∧ out.sum = 1 :=
  c6_compute_probability (fun _ => 1) zeroNet (List.replicate 784 0)
    zeroNet_wf (by simp only [List.length_replicate]) (fun _ => one_pos)

/-! ### C9 -/

theorem optTraverse_map {α β : Type} (f : β → Option α) (g : α → β)
    (l : List α) (h : ∀ a ∈ l, f (g a) = some a) :
    optTraverse f (l.map g) = some l := by
  induction l with
  | nil => rfl
  | cons a l ih =>
    simp only [List.map_cons, optTraverse]
    rw [h a (List.mem_cons_self a l),
      ih (fun b hb => h b (List.mem_cons_of_mem a hb))]

theorem decVec_encVec (v : List ℚ) : decVec (encVec v) = some v :=
  optTraverse_map decNum Json.num v (fun _ _ => rfl)

theorem decMat_encMat (m : List (List ℚ)) : decMat (encMat m) = some m :=
  optTraverse_map decVec encVec m (fun r _ => decVec_encVec r)

theorem decLayer_encLayer (l : Layer) : decLayer (encLayer l) = some l := by
  show (match decMat (encMat l.weights), decVec (encVec l.biases) with
        | some weights, some biases => some (⟨weights, biases⟩ : Layer)
        | _, _ => none) = some l
  rw [decMat_encMat, decVec_encVec]

/-- C9: persistence round-trip — loading the document produced by `save`
reproduces, for every network, the same layer count and, layer by layer,
equal weight matrices and bias vectors (here: the network itself). -/
theorem c9_save_load_roundtrip (net : NeuralNetwork) :
    load (save net) = some net := by
  show (match optTraverse decLayer (net.layers.map encLayer) with
        | some layers => some (⟨layers⟩ : NeuralNetwork)
        | none => none) = some net
  rw [optTraverse_map decLayer encLayer net.layers
    (fun l _ => decLayer_encLayer l)]

end DigitRec
